import Mathlib

/-!
# Verification of the repository's content-indexing and search engine

This file gives a shallow embedding in Lean 4 of the core algorithms of the
`visualize_github_star` scripts:

* `search_api.py` — the `AdvancedSearchEngine` class: query normalization,
  keyword extraction, fuzzy per-field scoring (including a faithful
  transcription of `difflib.SequenceMatcher.ratio`), snippet extraction,
  repository scoring with popularity boost and archival penalty, the
  two-tier search entry point, browse mode, and suggestions.
* `enhanced_github_indexer.py` — the `ContentIndexer` class: the content
  fingerprint (`get_content_hash`), the upsert path (`save_to_database`,
  which issues `INSERT OR REPLACE`), the SQLite FTS5 shadow table and the
  triggers that propagate writes to it, and the README cache-freshness check
  in `fetch_readme_content`.

Modelling conventions, stated once here:

* Python floats are modelled by exact rationals (`ℚ`); `math.log10` forces
  the popularity boost and hence the final score into `ℝ`.  All constants in
  the source (0.8, 0.6, 3.0, 2.5, 2.0, 1.5, 0.7, 0.1, 0.5) have small
  denominators, and every comparison performed by the code is between
  rationals whose exact difference, when nonzero, is far larger than any
  float rounding error at these magnitudes, so exact arithmetic decides
  every branch the same way the float code does.
* Python strings are modelled by Lean `String`; `str.lower` by
  `Char.toLower` per character and the regex classes `\w` / `\s` by ASCII
  word / whitespace characters (the repository's data is ASCII).
* `hashlib.md5(...).hexdigest()` is modelled by the digest *input* string
  itself: md5 is treated as injective (collision-free idealization), which
  is exactly the property the change detector relies on.
* SQLite state is modelled explicitly: the `repo_index` table as a list of
  rows in rowid order, the `repo_fts` shadow table as the list of index
  entries maintained by the triggers `repo_ai` / `repo_ad` / `repo_au`, and
  rowid allocation as a monotone counter (SQLite allocates a fresh unused
  rowid for an `INSERT` that does not supply one).  Crucially, per the
  documented SQLite conflict-resolution semantics, when `INSERT OR REPLACE`
  deletes a conflicting row the `AFTER DELETE` trigger fires only when
  `PRAGMA recursive_triggers` is on — the indexer never enables it, so the
  model does *not* fire `repo_ad` on the implicit delete.
* `json.dumps` of the topics list is modelled by `jsonDumps` below and
  `json.loads` of a stored topics column by the round-trip identity.
-/

/-! ## String utilities (Python semantics) -/

/-- The characters matched by the regex class `\s` (Python ASCII whitespace). -/
def pySpace (c : Char) : Bool :=
  c = ' ' || c = '\t' || c = '\n' || c = '\x0d' || c = '\x0b' || c = '\x0c'

/-- The characters matched by the regex class `\w` (ASCII word characters). -/
def isWordChar (c : Char) : Bool :=
  c.isAlphanum || c = '_'

/-- `str.lower()` on the character list. -/
def lowerChars (l : List Char) : List Char :=
  l.map Char.toLower

/-- `str.strip()`: drop leading and trailing whitespace. -/
def pyStrip (s : String) : String :=
  ⟨(((s.toList.dropWhile pySpace).reverse.dropWhile pySpace).reverse)⟩

/-- `re.sub(r'\s+', ' ', ·)`: collapse every run of whitespace to one space. -/
def collapseWs (l : List Char) : List Char :=
  l.foldr
    (fun c acc =>
      if pySpace c then
        match acc with
        | ' ' :: _ => acc
        | _ => ' ' :: acc
      else c :: acc) []

/-- `AdvancedSearchEngine.normalize_query`: lowercase, replace characters
matching `[^\w\s]` by a space, collapse whitespace runs, strip. -/
def normalize_query (query : String) : String :=
  pyStrip ⟨collapseWs ((lowerChars query.toList).map
    (fun c => if isWordChar c || pySpace c then c else ' '))⟩

/-- Maximal runs of word characters in a character list (the matches of
`\b\w+\b`), in order. -/
def wordRuns (l : List Char) : List (List Char) :=
  let p := l.foldr
    (fun c (acc : List Char × List (List Char)) =>
      if isWordChar c then (c :: acc.1, acc.2)
      else ([], if acc.1 = [] then acc.2 else acc.1 :: acc.2)) ([], [])
  if p.1 = [] then p.2 else p.1 :: p.2

/-- The stop-word set of `AdvancedSearchEngine.extract_keywords`, transcribed
from the source (the Python set literal contains `'her'` and `'way'` twice;
a set collapses duplicates, and so does membership in this list). -/
def stop_words : List String :=
  ["the", "and", "for", "are", "but", "not", "you", "all", "can", "had",
   "her", "was", "one", "our", "out", "day", "get", "has", "him", "his",
   "how", "its", "may", "new", "now", "old", "see", "two", "way", "who",
   "boy", "did", "she", "use", "many", "some", "time", "very", "when",
   "much", "then", "them", "well", "were"]

/-- `AdvancedSearchEngine.extract_keywords`: the matches of `\b\w{3,}\b` on
the lowercased text (i.e. maximal word-character runs of length ≥ 3), with
stop words removed. -/
def extract_keywords (text : String) : List String :=
  (((wordRuns (lowerChars text.toList)).filter (fun r => 3 ≤ r.length)).map
    (fun r => (⟨r⟩ : String))).filter (fun w => ¬ stop_words.contains w)

/-- Python `small in big` on strings: contiguous substring containment. -/
def strContains (big small : String) : Bool :=
  decide (small.toList <:+: big.toList)

/-! ## `difflib.SequenceMatcher(None, a, b).ratio()`

Transcribed from CPython's `difflib.py` for the junk-free case: with
`isjunk=None` and inputs shorter than 200 characters (the autojunk
threshold; the words compared here are search keywords), `b2j` holds every
position of every character of `b`, and the four junk-extension loops of
`find_longest_match` are no-ops, because the dynamic program over full
`b2j` already returns a longest matching block.  Recursion is driven by an
explicit fuel argument; the top-level call supplies fuel exceeding the
recursion depth of every reachable call (each level strictly shrinks the
window pair). -/

/-- The positions `j` of character `c` in `b` with `blo ≤ j < bhi`, ascending
(the `b2j.get(a[i])` lookup filtered by the `continue` / `break` guards). -/
def bIndices (b : List Char) (c : Char) (blo bhi : ℕ) : List ℕ :=
  (List.range b.length).filter (fun j => b.getD j ' ' = c && blo ≤ j && j < bhi)

/-- `SequenceMatcher.find_longest_match` on the window
`a[alo:ahi]` / `b[blo:bhi]`: returns `(besti, bestj, bestsize)`.  The state
threads `j2len` (as a function with default 0, exactly `dict.get(·, 0)`)
and the best triple; `k > bestsize` is a strict improvement, so the
earliest block in `a`, then in `b`, wins ties, as in the source. -/
def findLongestMatch (a b : List Char) (alo ahi blo bhi : ℕ) : ℕ × ℕ × ℕ :=
  ((List.range' alo (ahi - alo)).foldl
    (fun (st : (ℕ → ℕ) × ℕ × ℕ × ℕ) i =>
      let inner := (bIndices b (a.getD i ' ') blo bhi).foldl
        (fun (st2 : (ℕ → ℕ) × ℕ × ℕ × ℕ) j =>
          let k := (if j = 0 then 0 else st.1 (j - 1)) + 1
          (fun j2 => if j2 = j then k else st2.1 j2,
           if st2.2.2.2 < k then (i + 1 - k, j + 1 - k, k) else st2.2))
        ((fun _ => 0), st.2)
      (inner.1, inner.2))
    ((fun _ => 0), (alo, blo, 0))).2

/-- `sum(size for block in get_matching_blocks())`: the total matched
character count, by the matching-block recursion of
`SequenceMatcher.get_matching_blocks` (find the longest match, recurse on
the windows to its left and to its right). -/
def matchTotal (a b : List Char) : ℕ → ℕ → ℕ → ℕ → ℕ → ℕ
  | 0, _, _, _, _ => 0
  | fuel + 1, alo, ahi, blo, bhi =>
    let m := findLongestMatch a b alo ahi blo bhi
    if m.2.2 = 0 then 0
    else matchTotal a b fuel alo m.1 blo m.2.1 + m.2.2 +
         matchTotal a b fuel (m.1 + m.2.2) ahi (m.2.1 + m.2.2) bhi

/-- `difflib.SequenceMatcher(None, qa, qb).ratio()`:
`2.0 * matches / (len(a) + len(b))`, and 1.0 when both are empty
(`_calculate_ratio`). -/
def editSimilarity (qa qb : String) : ℚ :=
  let a := qa.toList
  let b := qb.toList
  let t := a.length + b.length
  if t = 0 then 1
  else (2 * (matchTotal a b (t + 1) 0 a.length 0 b.length) : ℚ) / t

/-! ## Fuzzy per-field scoring (`AdvancedSearchEngine`) -/

/-- The score the inner loop of `calculate_text_similarity` assigns to one
(query word, text word) pair: 1.0 on exact equality, 0.8 on substring
containment in either direction, otherwise the `difflib` ratio with values
below the 0.6 threshold clamped to 0. -/
def wordScore (query_word text_word : String) : ℚ :=
  if query_word = text_word then 1
  else if strContains text_word query_word || strContains query_word text_word then 4/5
  else
    let score := editSimilarity query_word text_word
    if score < 3/5 then 0 else score

/-- One `query_word` iteration of `calculate_text_similarity`: fold the text
words, keeping the strictly best `(best_match_score, best_match)` pair, then
add the best score to the total and append the best word when the best score
is positive. -/
def similarityStep (text_words : List String) (acc : ℚ × List String)
    (query_word : String) : ℚ × List String :=
  let best := text_words.foldl
    (fun (b : ℚ × Option String) text_word =>
      let score := wordScore query_word text_word
      if b.1 < score then (score, some text_word) else b)
    (0, none)
  if 0 < best.1 then (acc.1 + best.1, acc.2 ++ [best.2.getD ""]) else acc

/-- `AdvancedSearchEngine.calculate_text_similarity`: returns the normalized
total score (sum of per-keyword best scores divided by the keyword count)
together with the list of matched text words. -/
def calculate_text_similarity (query_words : List String) (text : String) :
    ℚ × List String :=
  if text = "" ∨ query_words = [] then (0, [])
  else
    let text_words := extract_keywords text
    if text_words = [] then (0, [])
    else
      let acc := query_words.foldl (similarityStep text_words) (0, [])
      (acc.1 / query_words.length, acc.2)

/-- `AdvancedSearchEngine.extract_snippet` with the default
`max_length = 200`: slide a window in steps of 50 over the text, score each
window by the number of query-word occurrences (duplicates in
`query_words` counted separately, as in the source), keep the strictly best
window, and add ellipses at a cut-off start or end. -/
def extract_snippet (text : String) (query_words : List String) : String :=
  if text = "" ∨ query_words = [] then
    if 200 < text.length then ⟨text.toList.take 200⟩ ++ "..." else text
  else
    let chars := text.toList
    let lower := lowerChars chars
    let best := (List.range' 0 ((chars.length + 49) / 50) 50).foldl
      (fun (b : ℕ × ℕ) i =>
        let window : String := ⟨(lower.drop i).take 200⟩
        let score := (query_words.filter (fun w => strContains window w)).length
        if b.1 < score then (score, i) else b)
      (0, 0)
    let best_pos := best.2
    let snippet : String := ⟨(chars.drop best_pos).take 200⟩
    let snippet := if 0 < best_pos then "..." ++ snippet else snippet
    if best_pos + 200 < chars.length then snippet ++ "..." else snippet

/-! ## Repository rows and scoring -/

/-- A row of the `repo_index` table (schema of `ContentIndexer._setup_database`),
together with its SQLite rowid.  `topics` is kept as the deserialized list;
the serialized JSON text stored in the column is `jsonDumps topics` and
`json.loads` recovers the list (round-trip identity). -/
structure DbRow where
  rowid : ℕ
  full_name : String
  name : String
  description : String
  language : String
  stars : ℕ
  updated_at : String
  html_url : String
  owner_login : String
  owner_avatar : String
  archived : Bool
  readme_content : String
  topics : List String
  last_indexed : String
  content_hash : String
deriving DecidableEq, Repr

/-- `json.dumps` of a list of strings (default separators, quote and
backslash escaping; topics are plain printable tags). -/
def jsonDumps (topics : List String) : String :=
  "[" ++ ", ".intercalate (topics.map
    (fun t => "\"" ++ String.join (t.toList.map
      (fun c => if c = '"' then "\\\"" else if c = '\\' then "\\\\"
                else String.singleton c)) ++ "\"")) ++ "]"

/-- The `SearchResult` dataclass of `search_api.py`. -/
structure SearchResult where
  repo : DbRow
  score : ℝ
  matched_fields : List String
  snippets : List (String × String)

/-- The `fields_weights` dict of `score_repository`, in iteration order. -/
def fields_weights : List (String × ℚ) :=
  [("name", 3), ("full_name", 5/2), ("description", 2),
   ("readme_content", 3/2), ("topics", 5/2)]

/-- `repo[field]`, with topics deserialized and space-joined as in
`score_repository`. -/
def fieldValue (repo : DbRow) (field : String) : String :=
  if field = "name" then repo.name
  else if field = "full_name" then repo.full_name
  else if field = "description" then repo.description
  else if field = "readme_content" then repo.readme_content
  else if field = "topics" then " ".intercalate repo.topics
  else ""

/-- One iteration of the field loop of `score_repository`: skip an empty
field value; otherwise add `similarity * weight` to the running total,
record the field as matched, and generate a snippet for the two content
fields — all only when the similarity is strictly positive. -/
def stepField (repo : DbRow) (query_words : List String)
    (acc : ℚ × List String × List (String × String)) (fw : String × ℚ) :
    ℚ × List String × List (String × String) :=
  let field_value := fieldValue repo fw.1
  if field_value = "" then acc
  else
    let similarity := (calculate_text_similarity query_words field_value).1
    if 0 < similarity then
      (acc.1 + similarity * fw.2, acc.2.1 ++ [fw.1],
       if fw.1 = "description" ∨ fw.1 = "readme_content" then
         acc.2.2 ++ [(fw.1, extract_snippet field_value query_words)]
       else acc.2.2)
    else acc

/-- The field loop of `score_repository`, producing
`(total_score, matched_fields, snippets)` before boost and penalty. -/
def field_loop (repo : DbRow) (query_words : List String) :
    ℚ × List String × List (String × String) :=
  fields_weights.foldl (stepField repo query_words) (0, [], [])

/-- The popularity boost of `score_repository`:
`min(math.log10(stars + 1) * 0.1, 0.5)`. -/
noncomputable def popularity_boost (stars : ℕ) : ℝ :=
  min (Real.logb 10 (stars + 1) * (1/10)) (1/2)

/-- `AdvancedSearchEngine.score_repository`: extract keywords from the
normalized query (empty keyword list short-circuits to a zero result), run
the field loop, add the popularity boost, and multiply by 0.7 when the
repository is archived. -/
noncomputable def score_repository (repo : DbRow) (query : String) : SearchResult :=
  let query_words := extract_keywords (normalize_query query)
  if query_words = [] then ⟨repo, 0, [], []⟩
  else
    let acc := field_loop repo query_words
    let total : ℝ := (acc.1 : ℝ) + popularity_boost repo.stars
    ⟨repo, if repo.archived then (7/10) * total else total, acc.2.1, acc.2.2⟩

/-! ## Search entry points -/

/-- `SELECT * FROM repo_index ORDER BY stars DESC`: the store scan in
descending-stars order (a stable sort of the rows in rowid order). -/
def sortByStars (rows : List DbRow) : List DbRow :=
  rows.mergeSort (fun a b => decide (b.stars ≤ a.stars))

/-- `AdvancedSearchEngine.get_all_repos`: the top `limit` rows by stars,
wrapped as zero-score results with no matches and no snippets. -/
noncomputable def get_all_repos (rows : List DbRow) (limit : ℕ) : List SearchResult :=
  ((sortByStars rows).take limit).map (fun r => ⟨r, 0, [], []⟩)

open scoped Classical in
/-- `AdvancedSearchEngine.search`.  The store table is `rows`; the outcome
of the SQLite FTS `MATCH` query — executed by the external SQLite engine —
is the parameter `ftsOutcome`: `.ok frows` is the row list the join
returns (ordered by the DB), `.error ()` is the `sqlite3.OperationalError`
raised on malformed FTS syntax, which the source catches and turns into an
empty first-tier result.  The second tier (the fuzzy scan over
`SELECT * FROM repo_index ORDER BY stars DESC`) runs only when the
first-tier result count is below `limit // 2`; it skips rows whose
`full_name` is already present, scores the rest, and keeps those at or
above `min_score`.  Survivors are sorted by descending score (stably, like
`list.sort(key=..., reverse=True)`) and truncated to `limit`. -/
noncomputable def search (rows : List DbRow) (ftsOutcome : Except Unit (List DbRow))
    (query : String) (limit : ℕ) (min_score : ℝ) : List SearchResult :=
  if pyStrip query = "" then get_all_repos rows limit
  else
    let query_words := extract_keywords (normalize_query query)
    if query_words = [] then get_all_repos rows limit
    else
      let ftsResults :=
        match ftsOutcome with
        | .ok frows =>
          (frows.map (fun r => score_repository r query)).filter
            (fun res => decide (min_score ≤ res.score))
        | .error _ => []
      let results :=
        if ftsResults.length < limit / 2 then
          ftsResults ++
            (((sortByStars rows).filter
                (fun r => ! ftsResults.any (fun x => x.repo.full_name == r.full_name))).map
              (fun r => score_repository r query)).filter
              (fun res => decide (min_score ≤ res.score))
        else ftsResults
      (results.mergeSort (fun a b => decide (b.score ≤ a.score))).take limit

open scoped Classical in
/-- Modelled from the spec: the "fuzzy-only path" the engine is said to fall
back to when the full-text query fails — fuzzy-score every record of the
store (scanned in descending-stars order, the spec's
`scanAll(orderBy=stars desc)`), discard scores below `min_score`, sort by
descending score and truncate to `limit`.  This definition follows the
spec's words; the claim about fallback behaviour compares `search` against
it. -/
noncomputable def fuzzyOnlySearch (rows : List DbRow) (query : String)
    (limit : ℕ) (min_score : ℝ) : List SearchResult :=
  ((((sortByStars rows).map (fun r => score_repository r query)).filter
      (fun res => decide (min_score ≤ res.score))).mergeSort
    (fun a b => decide (b.score ≤ a.score))).take limit

/-- `AdvancedSearchEngine.get_suggestions`: reject partial queries whose
normalized form is shorter than 2 characters without touching the store;
otherwise prefilter rows by a case-insensitive `LIKE '%q%'` on `name` or on
the serialized `topics` column (taking `limit * 3` candidate rows, the SQL
`LIMIT`), collect matching names and topics into a set (modelled as
first-insertion-order deduplication; the claims proved about the result do
not depend on set iteration order), and return at most `limit` of them. -/
def get_suggestions (rows : List DbRow) (query : String) (limit : ℕ) : List String :=
  let normalized_query := normalize_query query
  if normalized_query.length < 2 then []
  else
    let pre := (rows.filter (fun r =>
      strContains ⟨lowerChars r.name.toList⟩ normalized_query ||
      strContains ⟨lowerChars (jsonDumps r.topics).toList⟩ normalized_query)).take (limit * 3)
    let suggestions := pre.foldl
      (fun (acc : List String) r =>
        let acc := if strContains ⟨lowerChars r.name.toList⟩ normalized_query then
            (if acc.contains r.name then acc else acc ++ [r.name]) else acc
        r.topics.foldl
          (fun acc t =>
            if strContains ⟨lowerChars t.toList⟩ normalized_query then
              (if acc.contains t then acc else acc ++ [t]) else acc) acc) []
    suggestions.take limit

/-! ## The content store (`ContentIndexer`) -/

/-- The `RepoContent` dataclass of `enhanced_github_indexer.py` (the record
handed to `save_to_database`). -/
structure RepoContent where
  full_name : String
  name : String
  description : String
  language : String
  stars : ℕ
  updated_at : String
  html_url : String
  owner_login : String
  owner_avatar : String
  archived : Bool
  readme_content : String
  topics : List String
  last_indexed : String
deriving DecidableEq, Repr

/-- A row of the `repo_fts` FTS5 shadow table: the index entry the triggers
maintain for one store rowid. -/
structure FtsEntry where
  rowid : ℕ
  full_name : String
  name : String
  description : String
  readme_content : String
  topics : String
deriving DecidableEq, Repr

/-- The SQLite database state: the `repo_index` table in rowid order, the
`repo_fts` shadow entries, and the next rowid SQLite will allocate. -/
structure DbState where
  rows : List DbRow
  fts : List FtsEntry
  nextRowid : ℕ
deriving DecidableEq, Repr

/-- `ContentIndexer.get_content_hash`: the fingerprint over
`f"{description}{readme_content}{updated_at}"` (md5 modelled as injective,
see the header). -/
def get_content_hash (repo_content : RepoContent) : String :=
  repo_content.description ++ repo_content.readme_content ++ repo_content.updated_at

/-- The row `INSERT OR REPLACE INTO repo_index ...` writes. -/
def mkRow (rowid : ℕ) (c : RepoContent) (content_hash : String) : DbRow :=
  { rowid := rowid, full_name := c.full_name, name := c.name,
    description := c.description, language := c.language, stars := c.stars,
    updated_at := c.updated_at, html_url := c.html_url,
    owner_login := c.owner_login, owner_avatar := c.owner_avatar,
    archived := c.archived, readme_content := c.readme_content,
    topics := c.topics, last_indexed := c.last_indexed,
    content_hash := content_hash }

/-- The shadow entry the `repo_ai` AFTER INSERT trigger writes for a new
row (`topics` is the serialized column value). -/
def mkFtsEntry (r : DbRow) : FtsEntry :=
  { rowid := r.rowid, full_name := r.full_name, name := r.name,
    description := r.description, readme_content := r.readme_content,
    topics := jsonDumps r.topics }

/-- `ContentIndexer.save_to_database`: look up the stored `content_hash` for
this `full_name`; when it equals the new fingerprint, return with no write.
Otherwise `INSERT OR REPLACE`: SQLite deletes any conflicting row — firing
no `AFTER DELETE` trigger, because REPLACE-resolution deletions run
triggers only under `PRAGMA recursive_triggers`, which the indexer leaves
off — then inserts the new row under a fresh rowid, firing `repo_ai`,
which appends the new shadow entry.  The stale shadow entry of a replaced
row therefore survives. -/
def save_to_database (repo_content : RepoContent) (st : DbState) : DbState :=
  let content_hash := get_content_hash repo_content
  match st.rows.find? (fun r => r.full_name == repo_content.full_name) with
  | some r =>
    if r.content_hash = content_hash then st
    else
      let newRow := mkRow st.nextRowid repo_content content_hash
      { rows := st.rows.filter (fun x => ! (x.full_name == repo_content.full_name))
          ++ [newRow],
        fts := st.fts ++ [mkFtsEntry newRow],
        nextRowid := st.nextRowid + 1 }
  | none =>
    let newRow := mkRow st.nextRowid repo_content content_hash
    { rows := st.rows ++ [newRow],
      fts := st.fts ++ [mkFtsEntry newRow],
      nextRowid := st.nextRowid + 1 }

/-- An explicit `DELETE FROM repo_index WHERE full_name = ?`: an ordinary
DELETE fires the `repo_ad` trigger for every deleted row, which removes the
shadow entry carrying that row's rowid (the FTS5 external-content `delete`
command). -/
def delete_from_store (full_name : String) (st : DbState) : DbState :=
  let deleted := st.rows.filter (fun r => r.full_name == full_name)
  { rows := st.rows.filter (fun r => ! (r.full_name == full_name)),
    fts := st.fts.filter (fun e => ! deleted.any (fun r => r.rowid == e.rowid)),
    nextRowid := st.nextRowid }

/-- The freshly-initialized database (`_setup_database` on a new file;
SQLite rowids start at 1). -/
def initialDb : DbState :=
  { rows := [], fts := [], nextRowid := 1 }

/-! ## The README cache-freshness check -/

/-- A cache file on disk: its filesystem modification time and its text.
Timestamps are modelled as integers; `datetime` comparison of two aware
timestamps is comparison of the instants they denote. -/
structure CacheEntry where
  mtime : ℤ
  text : String
deriving DecidableEq, Repr

/-- The cache-check portion of `ContentIndexer.fetch_readme_content`
(`enhanced_github_indexer.py` lines 166-173): when a cache file exists and
its modification time is strictly later than the record's `updated_at`,
return the cached text; in every other case report a miss (`none`), which
sends the caller on to the remote fetch. -/
def readme_cache_get (entry : Option CacheEntry) (repo_updated : ℤ) : Option String :=
  match entry with
  | some e => if repo_updated < e.mtime then some e.text else none
  | none => none

/-! ## The scoring formula as the spec states it

These three definitions follow the spec's words (the formula of the scoring
claim), to be compared with the loop-based code embedding above: the best
field-word score is the *maximum* over the field's words, the field
similarity is the best scores *summed and divided* by the keyword count,
and the relevance is the weighted sum over all fields. -/

/-- Spec formula: best field-word score for one query keyword — the maximum
over the field's words of the per-pair score (0 when there are none). -/
def specBestWordScore (query_word : String) (text_words : List String) : ℚ :=
  text_words.foldl (fun q tw => max q (wordScore query_word tw)) 0

/-- Spec formula: field similarity — per-keyword best scores summed and
divided by the number of query keywords. -/
def specFieldSimilarity (query_words : List String) (text : String) : ℚ :=
  ((query_words.map
    (fun qw => specBestWordScore qw (extract_keywords text))).sum) /
    query_words.length

/-- Spec formula: total relevance before boost and penalty — the sum over
fields of field similarity times field weight. -/
def specRelevance (repo : DbRow) (query_words : List String) : ℚ :=
  (fields_weights.map
    (fun fw => specFieldSimilarity query_words (fieldValue repo fw.1) * fw.2)).sum

/-! ## Helper lemmas -/

theorem editSimilarity_nonneg (qa qb : String) : 0 ≤ editSimilarity qa qb := by
  unfold editSimilarity
  dsimp only
  split
  · norm_num
  · positivity

theorem wordScore_nonneg (qw tw : String) : 0 ≤ wordScore qw tw := by
  unfold wordScore
  dsimp only
  split
  · norm_num
  split
  · norm_num
  split
  · norm_num
  · exact editSimilarity_nonneg qw tw

theorem foldl_max_init_le (f : String → ℚ) (l : List String) :
    ∀ b : ℚ, b ≤ l.foldl (fun q w => max q (f w)) b := by
  induction l with
  | nil => intro b; simp
  | cons w l ih => intro b; exact le_trans (le_max_left _ _) (ih _)

theorem specBestWordScore_nonneg (qw : String) (tws : List String) :
    0 ≤ specBestWordScore qw tws :=
  foldl_max_init_le _ tws 0

theorem similarity_fold_fst (qw : String) (tws : List String) :
    ∀ b : ℚ × Option String,
      (tws.foldl
        (fun (b : ℚ × Option String) text_word =>
          let score := wordScore qw text_word
          if b.1 < score then (score, some text_word) else b) b).1 =
      tws.foldl (fun q tw => max q (wordScore qw tw)) b.1 := by
  induction tws with
  | nil => intro b; rfl
  | cons tw tws ih =>
    intro b
    simp only [List.foldl_cons]
    rw [ih]
    congr 1
    by_cases h : b.1 < wordScore qw tw
    · simp [h, max_eq_right (le_of_lt h)]
    · simp [h, max_eq_left (le_of_not_lt h)]

theorem similarityStep_fst (tws : List String) (acc : ℚ × List String)
    (qw : String) :
    (similarityStep tws acc qw).1 = acc.1 + specBestWordScore qw tws := by
  unfold similarityStep
  dsimp only
  rw [show (tws.foldl
        (fun (b : ℚ × Option String) text_word =>
          let score := wordScore qw text_word
          if b.1 < score then (score, some text_word) else b) (0, none)).1 =
      specBestWordScore qw tws from similarity_fold_fst qw tws (0, none)]
  by_cases h : 0 < specBestWordScore qw tws
  · rw [if_pos h]
  · rw [if_neg h]
    have h0 : specBestWordScore qw tws = 0 :=
      le_antisymm (not_lt.mp h) (specBestWordScore_nonneg qw tws)
    rw [h0, add_zero]

theorem similarity_foldl_fst (tws : List String) (qws : List String) :
    ∀ acc : ℚ × List String,
      (qws.foldl (similarityStep tws) acc).1 =
      acc.1 + (qws.map (fun qw => specBestWordScore qw tws)).sum := by
  induction qws with
  | nil => intro acc; simp
  | cons qw qws ih =>
    intro acc
    simp only [List.foldl_cons, List.map_cons, List.sum_cons]
    rw [ih, similarityStep_fst]
    ring

theorem sum_map_zero (l : List String) : (l.map (fun _ => (0 : ℚ))).sum = 0 := by
  induction l with
  | nil => rfl
  | cons x l ih => simp [ih]

theorem calculate_text_similarity_fst (qws : List String) (text : String) :
    (calculate_text_similarity qws text).1 = specFieldSimilarity qws text := by
  unfold calculate_text_similarity specFieldSimilarity
  by_cases h1 : text = "" ∨ qws = []
  · rw [if_pos h1]
    rcases h1 with h | h
    · subst h
      rw [show extract_keywords "" = [] from rfl]
      simp only [specBestWordScore, List.foldl_nil]
      rw [sum_map_zero, zero_div]
    · subst h
      simp
  · rw [if_neg h1]
    by_cases h2 : extract_keywords text = []
    · rw [if_pos h2, h2]
      simp only [specBestWordScore, List.foldl_nil]
      rw [sum_map_zero, zero_div]
    · rw [if_neg h2]
      dsimp only
      rw [similarity_foldl_fst]
      simp

theorem calculate_text_similarity_nonneg (qws : List String) (text : String) :
    0 ≤ (calculate_text_similarity qws text).1 := by
  rw [calculate_text_similarity_fst]
  unfold specFieldSimilarity
  apply div_nonneg
  · apply List.sum_nonneg
    intro x hx
    rcases List.mem_map.mp hx with ⟨qw, _, rfl⟩
    exact specBestWordScore_nonneg qw _
  · positivity

theorem calculate_text_similarity_empty (qws : List String) :
    (calculate_text_similarity qws "").1 = 0 := by
  unfold calculate_text_similarity
  rw [if_pos (Or.inl rfl)]

theorem fields_fold_fst (repo : DbRow) (qws : List String)
    (L : List (String × ℚ)) :
    ∀ acc, (L.foldl (stepField repo qws) acc).1 =
      acc.1 + (L.map (fun fw =>
        (calculate_text_similarity qws (fieldValue repo fw.1)).1 * fw.2)).sum := by
  induction L with
  | nil => intro acc; simp
  | cons fw L ih =>
    intro acc
    simp only [List.foldl_cons, List.map_cons, List.sum_cons]
    rw [ih]
    have hstep : (stepField repo qws acc fw).1 =
        acc.1 + (calculate_text_similarity qws (fieldValue repo fw.1)).1 * fw.2 := by
      unfold stepField
      by_cases hv : fieldValue repo fw.1 = ""
      · rw [if_pos hv, hv, calculate_text_similarity_empty, zero_mul, add_zero]
      · rw [if_neg hv]
        by_cases hs : 0 < (calculate_text_similarity qws (fieldValue repo fw.1)).1
        · rw [if_pos hs]
        · rw [if_neg hs]
          have h0 : (calculate_text_similarity qws (fieldValue repo fw.1)).1 = 0 :=
            le_antisymm (not_lt.mp hs) (calculate_text_similarity_nonneg _ _)
          rw [h0, zero_mul, add_zero]
    rw [hstep]
    ring

theorem fields_fold_matched (repo : DbRow) (qws : List String)
    (L : List (String × ℚ)) :
    ∀ acc, (L.foldl (stepField repo qws) acc).2.1 =
      acc.2.1 ++ (L.filter (fun fw =>
        decide (0 < (calculate_text_similarity qws (fieldValue repo fw.1)).1))).map
        Prod.fst := by
  induction L with
  | nil => intro acc; simp
  | cons fw L ih =>
    intro acc
    simp only [List.foldl_cons, List.filter_cons]
    by_cases hs : 0 < (calculate_text_similarity qws (fieldValue repo fw.1)).1
    · rw [if_pos (by simpa using hs)]
      rw [ih]
      have hv : fieldValue repo fw.1 ≠ "" := by
        intro hv
        rw [hv, calculate_text_similarity_empty] at hs
        exact lt_irrefl 0 hs
      have hstep : (stepField repo qws acc fw).2.1 = acc.2.1 ++ [fw.1] := by
        unfold stepField
        rw [if_neg hv, if_pos hs]
      rw [hstep, List.map_cons, List.append_assoc, List.singleton_append]
    · rw [if_neg (by simpa using hs)]
      rw [ih]
      have hstep : (stepField repo qws acc fw).2.1 = acc.2.1 := by
        unfold stepField
        by_cases hv : fieldValue repo fw.1 = ""
        · rw [if_pos hv]
        · rw [if_neg hv, if_neg hs]
      rw [hstep]

/-! ## Claim C3 — cache freshness -/

/-- C3: for a cached README entry, the cache lookup returns the cached text
iff the entry's stored modification time is strictly after the record's
upstream `updated_at`; whenever the modification time is at or before
`updated_at` the lookup reports a miss (forcing a refetch) although cached
content exists. -/
theorem cache_freshness (e : CacheEntry) (u : ℤ) :
    (readme_cache_get (some e) u = some e.text ↔ u < e.mtime) ∧
    (e.mtime ≤ u → readme_cache_get (some e) u = none) := by
  constructor
  · constructor
    · intro h
      by_contra hlt
      rw [readme_cache_get, if_neg hlt] at h
      exact Option.noConfusion h
    · intro h
      rw [readme_cache_get, if_pos h]
  · intro h
    rw [readme_cache_get, if_neg (not_lt.mpr h)]

/-- Witness for C3 at a concrete stale entry (mtime 5, upstream 7). -/
theorem cache_freshness_witness :
    (5 : ℤ) ≤ 7 ∧ readme_cache_get (some ⟨5, "cached text"⟩) 7 = none :=
  ⟨by decide, (cache_freshness ⟨5, "cached text"⟩ 7).2 (by decide)⟩

/-! ## Claim C7 — bounded popularity boost -/

/-- C7: for every non-negative stars value the additive popularity term is
`min(log10(stars+1) * 0.1, 0.5)` and therefore never exceeds 0.5. -/
theorem popularity_boost_bounded (stars : ℕ) :
    popularity_boost stars = min (Real.logb 10 (stars + 1) * (1/10)) (1/2) ∧
    popularity_boost stars ≤ 1/2 :=
  ⟨rfl, min_le_right _ _⟩

/-! ## Claim C6 — archival penalty -/

/-- C6: two records identical in every field except `archived` satisfy
`score_archived = 0.7 * score_nonarchived`; the multiplier hits the total
after the popularity boost has been added, so the boost is scaled too. -/
theorem archival_penalty (r : DbRow) (query : String) :
    (score_repository { r with archived := true } query).score =
    (7/10) * (score_repository { r with archived := false } query).score := by
  unfold score_repository
  dsimp only
  by_cases h : extract_keywords (normalize_query query) = []
  · rw [if_pos h, if_pos h]
    norm_num
  · rw [if_neg h, if_neg h]
    dsimp only
    rfl

/-! ## Claim C10 — zero-keyword scoring short-circuit -/

/-- C10: scoring any record against a query that extracts zero keywords
returns score exactly 0 with no matched fields and no snippets — neither
the popularity boost nor the archival penalty is applied, whatever the
record's stars or archived flag. -/
theorem zero_keyword_short_circuit (r : DbRow) (query : String)
    (h : extract_keywords (normalize_query query) = []) :
    score_repository r query = ⟨r, 0, [], []⟩ := by
  unfold score_repository
  dsimp only
  rw [if_pos h]

/-- Witness for C10: a stop-word-only query against a high-stars archived
record still scores exactly 0. -/
theorem zero_keyword_short_circuit_witness :
    extract_keywords (normalize_query "the and") = [] ∧
    score_repository ⟨1, "o/r", "r", "d", "", 1000, "", "", "", "", true, "readme txt", ["top"], "", ""⟩ "the and" =
      ⟨⟨1, "o/r", "r", "d", "", 1000, "", "", "", "", true, "readme txt", ["top"], "", ""⟩, 0, [], []⟩ :=
  ⟨by decide, zero_keyword_short_circuit _ "the and" (by decide)⟩

/-! ## Claim C1 — shadow-index synchrony -/

/-- A first record for the store. -/
def c1first : RepoContent :=
  { full_name := "o/r", name := "r", description := "x", language := "",
    stars := 1, updated_at := "t", html_url := "u", owner_login := "o",
    owner_avatar := "a", archived := false, readme_content := "", topics := [],
    last_indexed := "i1" }

/-- The same repository re-indexed with changed content. -/
def c1second : RepoContent :=
  { c1first with description := "y", last_indexed := "i2" }

/-- C1 fails on the code: a replacement write through `INSERT OR REPLACE`
fires no delete trigger for the replaced row (SQLite runs REPLACE-deletion
triggers only under `recursive_triggers`, which the indexer never enables),
so after two upserts of the same `full_name` with different content the
store holds one row while the shadow table holds two entries — the stale
fragment survives and the counts disagree, contradicting the claimed
invariant and the code's own "keep FTS table in sync" comment. -/
theorem shadow_index_desync :
    (save_to_database c1second (save_to_database c1first initialDb)).rows.length = 1 ∧
    (save_to_database c1second (save_to_database c1first initialDb)).fts.length = 2 := by
  decide

/-! ## Claim C2 — idempotent upsert gated by the content fingerprint -/

/-- After any `save_to_database` call, the row stored under the written
record's `full_name` carries exactly that record's content fingerprint
(this holds on the skip path too, because skipping requires the stored
hash to equal the computed one). -/
theorem save_stored_hash (c : RepoContent) (st : DbState) :
    ∃ r, (save_to_database c st).rows.find? (fun x => x.full_name == c.full_name) = some r ∧
      r.content_hash = get_content_hash c := by
  unfold save_to_database
  dsimp only
  split
  case h_1 r hf =>
    split
    case isTrue hh => exact ⟨r, hf, hh⟩
    case isFalse hh =>
      refine ⟨mkRow st.nextRowid c (get_content_hash c), ?_, rfl⟩
      dsimp only
      rw [List.find?_append]
      have hnone : (st.rows.filter
          (fun x => ! (x.full_name == c.full_name))).find?
          (fun x => x.full_name == c.full_name) = none := by
        rw [List.find?_eq_none]
        intro x hx
        have := (List.mem_filter.mp hx).2
        simp only [Bool.not_eq_eq_eq_not, Bool.not_true] at this ⊢
        simp [this]
      rw [hnone]
      simp [mkRow, Option.or]
  case h_2 hf =>
    refine ⟨mkRow st.nextRowid c (get_content_hash c), ?_, rfl⟩
    dsimp only
    rw [List.find?_append, hf]
    simp [mkRow, Option.or]

/-- C2: the fingerprint is computed only over
`(description, readme_content, updated_at)`, and a second upsert whose
record carries the fingerprint already stored under its `full_name` is a
complete no-op — no store write and no shadow-index touch — even when the
new record's `stars` or `last_indexed` differ from the stored row. -/
theorem idempotent_upsert (st₀ : DbState) (c₁ c₂ : RepoContent)
    (hfn : c₂.full_name = c₁.full_name)
    (hh : get_content_hash c₂ = get_content_hash c₁) :
    save_to_database c₂ (save_to_database c₁ st₀) = save_to_database c₁ st₀ ∧
    (∀ c₃ : RepoContent, c₃.description = c₁.description →
      c₃.readme_content = c₁.readme_content → c₃.updated_at = c₁.updated_at →
      get_content_hash c₃ = get_content_hash c₁) := by
  constructor
  · obtain ⟨r, hfind, hhash⟩ := save_stored_hash c₁ st₀
    have key : ∀ st₁ : DbState,
        st₁.rows.find? (fun x => x.full_name == c₁.full_name) = some r →
        save_to_database c₂ st₁ = st₁ := by
      intro st₁ hfind₁
      unfold save_to_database
      dsimp only
      rw [hfn, hfind₁]
      dsimp only
      rw [if_pos (hhash.trans hh.symm)]
    exact key _ hfind
  · intro c₃ hd hr hu
    unfold get_content_hash
    rw [hd, hr, hu]

/-- A first indexing pass for C2's witness. -/
def c2first : RepoContent :=
  { full_name := "o/r", name := "r", description := "d", language := "",
    stars := 1, updated_at := "t", html_url := "", owner_login := "",
    owner_avatar := "", archived := false, readme_content := "rm",
    topics := [], last_indexed := "i1" }

/-- A second pass of the same repository: same content fingerprint fields,
different `stars` and `last_indexed`. -/
def c2second : RepoContent :=
  { c2first with stars := 99, last_indexed := "i2" }

/-- Witness for C2 at a concrete pair of records. -/
theorem idempotent_upsert_witness :
    c2second.full_name = c2first.full_name ∧
    get_content_hash c2second = get_content_hash c2first ∧
    save_to_database c2second (save_to_database c2first initialDb) =
      save_to_database c2first initialDb :=
  ⟨rfl, rfl, (idempotent_upsert initialDb c2first c2second rfl rfl).1⟩

/-! ## Claim C4 — the per-field fuzzy scoring formula -/

/-- C4: for every record, every text and every query with a non-empty
keyword list, (i) the field similarity the code computes equals the spec
formula — per-keyword best scores (the maximum over the field's words of
{1.0 exact, 0.8 substring either way, else the edit ratio clamped below
0.6}) summed and divided by the keyword count; (ii) a field is listed in
`matched_fields` iff its spec similarity is strictly positive; (iii) the
pre-boost total equals the weighted sum of field similarities under the
weights {name 3.0, full_name 2.5, description 2.0, readme_content 1.5,
topics 2.5}; and (iv) the final score is that total plus the popularity
boost, scaled by 0.7 exactly when the record is archived. -/
theorem fuzzy_scoring_formula (r : DbRow) (query : String) (text : String)
    (h : extract_keywords (normalize_query query) ≠ []) :
    (calculate_text_similarity (extract_keywords (normalize_query query)) text).1 =
      specFieldSimilarity (extract_keywords (normalize_query query)) text ∧
    (score_repository r query).matched_fields =
      (fields_weights.filter (fun fw => decide (0 <
        specFieldSimilarity (extract_keywords (normalize_query query))
          (fieldValue r fw.1)))).map Prod.fst ∧
    (field_loop r (extract_keywords (normalize_query query))).1 =
      specRelevance r (extract_keywords (normalize_query query)) ∧
    (score_repository r query).score =
      (if r.archived then (7/10 : ℝ) else 1) *
        (((field_loop r (extract_keywords (normalize_query query))).1 : ℝ) +
          popularity_boost r.stars) := by
  refine ⟨calculate_text_similarity_fst _ _, ?_, ?_, ?_⟩
  · unfold score_repository
    dsimp only
    rw [if_neg h]
    dsimp only
    unfold field_loop
    rw [fields_fold_matched r (extract_keywords (normalize_query query))
      fields_weights (0, [], [])]
    dsimp only
    rw [List.nil_append]
    congr 1
    apply List.filter_congr
    intro fw _
    rw [calculate_text_similarity_fst]
  · unfold field_loop specRelevance
    rw [fields_fold_fst r (extract_keywords (normalize_query query))
      fields_weights (0, [], [])]
    dsimp only
    rw [zero_add]
    congr 1
    apply List.map_congr_left
    intro fw _
    rw [calculate_text_similarity_fst]
  · unfold score_repository
    dsimp only
    rw [if_neg h]
    dsimp only
    by_cases ha : r.archived
    · rw [ha, if_pos rfl, if_pos rfl]
    · simp only [ha, if_neg, Bool.false_eq_true, if_false, one_mul]

/-- The record for C4's witness. -/
def c4repo : DbRow :=
  ⟨1, "x/y", "hello", "", "", 0, "", "", "", "", false, "", [], "", ""⟩

/-- Witness for C4 at the query "hello" and the text "hello world". -/
theorem fuzzy_scoring_formula_witness :
    extract_keywords (normalize_query "hello") ≠ [] ∧
    ((calculate_text_similarity (extract_keywords (normalize_query "hello")) "hello world").1 =
      specFieldSimilarity (extract_keywords (normalize_query "hello")) "hello world" ∧
    (score_repository c4repo "hello").matched_fields =
      (fields_weights.filter (fun fw => decide (0 <
        specFieldSimilarity (extract_keywords (normalize_query "hello"))
          (fieldValue c4repo fw.1)))).map Prod.fst ∧
    (field_loop c4repo (extract_keywords (normalize_query "hello"))).1 =
      specRelevance c4repo (extract_keywords (normalize_query "hello")) ∧
    (score_repository c4repo "hello").score =
      (if c4repo.archived then (7/10 : ℝ) else 1) *
        (((field_loop c4repo (extract_keywords (normalize_query "hello"))).1 : ℝ) +
          popularity_boost c4repo.stars)) :=
  ⟨by decide, fuzzy_scoring_formula c4repo "hello" "hello world" (by decide)⟩

/-! ## Claim C5 — browse mode for empty queries -/

/-- The stars-descending comparator used by the store scans is transitive. -/
theorem starsGe_trans (a b c : DbRow) :
    decide (b.stars ≤ a.stars) = true → decide (c.stars ≤ b.stars) = true →
    decide (c.stars ≤ a.stars) = true := by
  intro hab hbc
  exact decide_eq_true (le_trans (of_decide_eq_true hbc) (of_decide_eq_true hab))

/-- The stars-descending comparator is total. -/
theorem starsGe_total (a b : DbRow) :
    (decide (b.stars ≤ a.stars) || decide (a.stars ≤ b.stars)) = true := by
  rcases Nat.le_total b.stars a.stars with h | h <;> simp [h]

/-- C5: when the query is empty or normalizes to zero keywords, `search`
returns the top `limit` rows of the store ordered by descending stars —
regardless of the FTS outcome and of every text field — each wrapped with
score 0, no matched fields and no snippets. -/
theorem browse_mode (rows : List DbRow) (ftsOutcome : Except Unit (List DbRow))
    (query : String) (limit : ℕ) (min_score : ℝ)
    (h : extract_keywords (normalize_query query) = []) :
    search rows ftsOutcome query limit min_score =
      ((sortByStars rows).take limit).map (fun r => ⟨r, 0, [], []⟩) ∧
    (search rows ftsOutcome query limit min_score).Pairwise
      (fun a b => b.repo.stars ≤ a.repo.stars) ∧
    ∀ res ∈ search rows ftsOutcome query limit min_score,
      res.score = 0 ∧ res.matched_fields = [] ∧ res.snippets = [] := by
  have hmain : search rows ftsOutcome query limit min_score =
      get_all_repos rows limit := by
    unfold search
    by_cases hs : pyStrip query = ""
    · rw [if_pos hs]
    · rw [if_neg hs]
      dsimp only
      rw [if_pos h]
  refine ⟨hmain, ?_, ?_⟩
  · rw [hmain]
    unfold get_all_repos
    rw [List.pairwise_map]
    apply List.Pairwise.sublist (List.take_sublist _ _)
    have hsorted := List.sorted_mergeSort starsGe_trans starsGe_total rows
    exact hsorted.imp (fun hab => of_decide_eq_true hab)
  · rw [hmain]
    unfold get_all_repos
    intro res hres
    rcases List.mem_map.mp hres with ⟨r, _, rfl⟩
    exact ⟨rfl, rfl, rfl⟩

/-- Witness for C5: a whitespace-and-punctuation query that normalizes to
zero keywords, a two-row store, and an errored FTS outcome. -/
theorem browse_mode_witness :
    extract_keywords (normalize_query " !? ") = [] ∧
    search [⟨1, "a/a", "aaa", "", "", 3, "", "", "", "", false, "", [], "", ""⟩,
            ⟨2, "b/b", "bbb", "", "", 9, "", "", "", "", false, "", [], "", ""⟩]
        (.error ()) " !? " 5 (1/10) =
      ((sortByStars
          [⟨1, "a/a", "aaa", "", "", 3, "", "", "", "", false, "", [], "", ""⟩,
           ⟨2, "b/b", "bbb", "", "", 9, "", "", "", "", false, "", [], "", ""⟩]).take 5).map
        (fun r => ⟨r, 0, [], []⟩) :=
  ⟨by decide,
    (browse_mode
      [⟨1, "a/a", "aaa", "", "", 3, "", "", "", "", false, "", [], "", ""⟩,
       ⟨2, "b/b", "bbb", "", "", 9, "", "", "", "", false, "", [], "", ""⟩]
      (.error ()) " !? " 5 (1/10) (by decide)).1⟩

/-! ## Claim C9 — short-query guard on suggestions -/

/-- An insertion-fold whose every step preserves `Nodup` produces a `Nodup`
list from a `Nodup` accumulator. -/
theorem foldl_nodup {α : Type} (g : List String → α → List String)
    (hg : ∀ acc a, acc.Nodup → (g acc a).Nodup) :
    ∀ (l : List α) (acc : List String), acc.Nodup → (l.foldl g acc).Nodup := by
  intro l
  induction l with
  | nil => intro acc h; exact h
  | cons a l ih => intro acc h; exact ih (g acc a) (hg acc a h)

/-- Conditionally inserting an element not already present preserves
`Nodup`. -/
theorem insert_dedup_nodup (acc : List String) (s : String) (h : acc.Nodup) :
    (if acc.contains s then acc else acc ++ [s]).Nodup := by
  by_cases hc : acc.contains s
  · rw [if_pos hc]; exact h
  · rw [if_neg hc]
    rw [List.nodup_append]
    refine ⟨h, List.nodup_singleton s, ?_⟩
    intro a ha hmem
    rw [List.mem_singleton] at hmem
    subst hmem
    exact hc (List.elem_iff.mpr ha)

/-- C9: a partial query whose normalized form is shorter than 2 characters
yields the empty suggestion list whatever the store holds; in every case
the result has at most `limit` entries and no duplicates. -/
theorem suggestions_guard (rows : List DbRow) (query : String) (limit : ℕ) :
    ((normalize_query query).length < 2 → get_suggestions rows query limit = []) ∧
    (get_suggestions rows query limit).length ≤ limit ∧
    (get_suggestions rows query limit).Nodup := by
  unfold get_suggestions
  dsimp only
  by_cases h2 : (normalize_query query).length < 2
  · rw [if_pos h2]
    exact ⟨fun _ => rfl, Nat.zero_le _, List.nodup_nil⟩
  · rw [if_neg h2]
    refine ⟨fun hcontra => absurd hcontra h2, List.length_take_le _ _, ?_⟩
    apply List.Sublist.nodup (List.take_sublist _ _)
    refine foldl_nodup _ ?_ _ _ List.nodup_nil
    intro acc r hacc
    refine foldl_nodup _ ?_ _ _ ?_
    · intro acc₂ t hacc₂
      by_cases ht : strContains ⟨lowerChars t.toList⟩ (normalize_query query)
      · rw [if_pos ht]
        exact insert_dedup_nodup acc₂ t hacc₂
      · rw [if_neg ht]; exact hacc₂
    · by_cases hn : strContains ⟨lowerChars r.name.toList⟩ (normalize_query query)
      · rw [if_pos hn]
        exact insert_dedup_nodup acc r.name hacc
      · rw [if_neg hn]; exact hacc

/-- Witness for C9: a one-character query returns no suggestions even over
a store that would match it. -/
theorem suggestions_guard_witness :
    (normalize_query "r").length < 2 ∧
    get_suggestions
      [⟨1, "a/react", "react", "", "", 5, "", "", "", "", false, "",
        ["reactjs", "frontend"], "", ""⟩] "r" 10 = [] :=
  ⟨by decide,
    (suggestions_guard
      [⟨1, "a/react", "react", "", "", 5, "", "", "", "", false, "",
        ["reactjs", "frontend"], "", ""⟩] "r" 10).1 (by decide)⟩

/-! ## Claim C8 — full-text failure fallback -/

/-- C8 (amended): for a non-empty query with at least one keyword whose FTS
query errors, `search` swallows the error; whenever `limit ≥ 2` it falls
back to the fuzzy-only path — scoring every record of the store — so the
caller sees the full fuzzy result set instead of an exception.  (For
`limit ≤ 1` the guard `len(results) < limit // 2` is false on the empty
first tier, so no fuzzy scan runs; see the counterexample.) -/
theorem fts_error_fallback (rows : List DbRow) (query : String) (limit : ℕ)
    (min_score : ℝ) (hq : pyStrip query ≠ "")
    (hk : extract_keywords (normalize_query query) ≠ []) (hl : 2 ≤ limit) :
    search rows (.error ()) query limit min_score =
      fuzzyOnlySearch rows query limit min_score := by
  unfold search fuzzyOnlySearch
  rw [if_neg hq, if_neg hk]
  dsimp only
  rw [if_pos (show (List.length ([] : List SearchResult)) < limit / 2 by
    simp only [List.length_nil]
    omega)]
  simp only [List.any_nil, Bool.not_false, List.filter_true, List.nil_append]

/-- Witness for C8's amended theorem at a concrete store and `limit = 2`. -/
theorem fts_error_fallback_witness :
    pyStrip "hello" ≠ "" ∧
    extract_keywords (normalize_query "hello") ≠ [] ∧
    search [⟨1, "x/y", "hello", "", "", 0, "", "", "", "", false, "", [], "", ""⟩]
        (.error ()) "hello" 2 (1/10) =
      fuzzyOnlySearch
        [⟨1, "x/y", "hello", "", "", 0, "", "", "", "", false, "", [], "", ""⟩]
        "hello" 2 (1/10) :=
  ⟨by decide, by decide,
    fts_error_fallback
      [⟨1, "x/y", "hello", "", "", 0, "", "", "", "", false, "", [], "", ""⟩]
      "hello" 2 (1/10) (by decide) (by decide) (by decide)⟩

/-- The store row for C8's counterexample. -/
def c8row : DbRow :=
  ⟨1, "x/y", "hello", "", "", 0, "", "", "", "", false, "", [], "", ""⟩

/-- C8 as frozen is false at `limit = 1`: the FTS error is caught, but with
`len(results) < limit // 2` evaluating to `0 < 0` the fuzzy scan never
runs, so `search` returns the empty list while the fuzzy-only path returns
the matching record — the engine does *not* fall back to scoring every
record in the store. -/
theorem fts_error_fallback_counterexample :
    search [c8row] (.error ()) "hello" 1 (1/10) ≠
      fuzzyOnlySearch [c8row] "hello" 1 (1/10) := by
  have hqws : extract_keywords (normalize_query "hello") = ["hello"] := by decide
  have hL : search [c8row] (.error ()) "hello" 1 (1/10) = [] := by
    unfold search
    rw [if_neg (show pyStrip "hello" ≠ "" by decide)]
    rw [if_neg (show extract_keywords (normalize_query "hello") ≠ [] by decide)]
    dsimp only
    rw [if_neg (show ¬ (List.length ([] : List SearchResult)) < 1 / 2 by
      simp)]
    simp [List.mergeSort_nil]
  have hsim_name : (calculate_text_similarity ["hello"] "hello").1 = 1 := by
    rw [calculate_text_similarity_fst]
    unfold specFieldSimilarity specBestWordScore
    rw [show extract_keywords "hello" = ["hello"] from by decide]
    simp only [List.map_cons, List.map_nil, List.foldl_cons, List.foldl_nil,
      List.sum_cons, List.sum_nil, List.length_cons, List.length_nil]
    rw [show wordScore "hello" "hello" = 1 from by decide]
    norm_num
  have hsim_fn : (calculate_text_similarity ["hello"] "x/y").1 = 0 := by
    unfold calculate_text_similarity
    rw [if_neg (show ¬ (("x/y" : String) = "" ∨ (["hello"] : List String) = []) by decide)]
    rw [if_pos (show extract_keywords "x/y" = [] by decide)]
  have hfl : (field_loop c8row ["hello"]).1 = 3 := by
    unfold field_loop
    rw [fields_fold_fst c8row ["hello"] fields_weights (0, [], [])]
    unfold fields_weights
    simp only [List.map_cons, List.map_nil, List.sum_cons, List.sum_nil]
    rw [show fieldValue c8row "name" = "hello" from rfl,
        show fieldValue c8row "full_name" = "x/y" from rfl,
        show fieldValue c8row "description" = "" from rfl,
        show fieldValue c8row "readme_content" = "" from rfl,
        show fieldValue c8row "topics" = "" from rfl]
    rw [hsim_name, hsim_fn, calculate_text_similarity_empty]
    norm_num
  have hb : popularity_boost c8row.stars = 0 := by
    unfold popularity_boost
    rw [show c8row.stars = 0 from rfl]
    rw [show ((0 : ℕ) : ℝ) + 1 = 1 by norm_num, Real.logb_one, zero_mul]
    exact min_eq_left (by norm_num)
  have hscore : (score_repository c8row "hello").score = 3 := by
    unfold score_repository
    rw [hqws]
    rw [if_neg (show (["hello"] : List String) ≠ [] by decide)]
    rw [show c8row.archived = false from rfl]
    dsimp only
    rw [if_neg (show ¬ (false = true) by simp)]
    rw [hfl, hb]
    norm_num
  have hR : fuzzyOnlySearch [c8row] "hello" 1 (1/10) =
      [score_repository c8row "hello"] := by
    unfold fuzzyOnlySearch sortByStars
    rw [List.mergeSort_singleton]
    simp only [List.map_cons, List.map_nil]
    rw [List.filter_cons]
    rw [if_pos (decide_eq_true (show (1/10 : ℝ) ≤ (score_repository c8row "hello").score by
      rw [hscore]; norm_num))]
    rw [List.filter_nil, List.mergeSort_singleton]
    rfl
  rw [hL, hR]
  simp
